import Mathlib

/-!
# NagarSeva grievance system — verification of the complaint lifecycle core

Shallow embedding of the repository's core logic:
* `db.ts` (schema, seeding, rebuild migration, value normalization),
* `server.ts` (complaint creation, set-status, close-with-proof,
  random distribution, legacy reopen/feedback endpoints),
* `aiService.ts` (spam/category/priority heuristics, resolution verification).

Modelling conventions:
* Free text is `List Char` (`Str`); all text functions are written as
  structural recursions so they evaluate inside the kernel.
* SQL rows are Lean structures; an `UPDATE` that names some columns is a
  record update leaving every other field unchanged; an error response is
  `Except.error` (the handler returns before any `UPDATE` runs).
* `CURRENT_TIMESTAMP` is an explicit `now : Nat` argument.
* JavaScript floating-point ratio comparisons (`x / y >= c` with small
  integer `x`, `y` and decimal literal `c`) are modelled exactly on
  rationals by cross-multiplication.
* `bcrypt.hashSync` is an opaque `hash : String → String` parameter,
  `Math.random` an explicit `picks : Nat → Nat` parameter.
* `latitude`/`longitude` (SQL `REAL`, unused by the workflow logic) are
  omitted from the row model.
-/

abbrev Str := List Char

/-- `needle.isPrefixOf hay` for char lists, written out structurally;
first argument is the haystack, second the candidate prefix. -/
def strStartsWith : Str → Str → Bool
  | _, [] => true
  | [], _ :: _ => false
  | c :: t, d :: n => c == d && strStartsWith t n

/-- JavaScript `hay.includes(needle)`: substring containment. -/
def containsStr : Str → Str → Bool
  | [], needle => strStartsWith [] needle
  | c :: t, needle => strStartsWith (c :: t) needle || containsStr t needle

/-- `needles.some((needle) => input.includes(needle))` (`hasAny` in aiService). -/
def hasAny (input : Str) (needles : List Str) : Bool :=
  needles.any (fun n => containsStr input n)

/-- JavaScript `toLowerCase()` (ASCII, which is all the heuristics use). -/
def toLowerStr (s : Str) : Str := s.map Char.toLower

/-- JavaScript `trim()`: drop leading and trailing whitespace. -/
def trimStr (s : Str) : Str :=
  ((s.dropWhile Char.isWhitespace).reverse.dropWhile Char.isWhitespace).reverse

/-- JavaScript `replace(/\s+/g, " ")`: each whitespace run becomes one
space.  The flag records whether the previous character was whitespace. -/
def collapseWsAux : Str → Bool → Str
  | [], _ => []
  | c :: t, prevWs =>
    if c.isWhitespace then
      (if prevWs then collapseWsAux t true else ' ' :: collapseWsAux t true)
    else c :: collapseWsAux t false

/-- `replace(/\s+/g, " ").trim()` — the normalization aiService applies to
lowercased text before keyword matching. -/
def normWs (s : Str) : Str := trimStr (collapseWsAux s false)

/-- `text.split(/\s+/).filter(Boolean)`: the words of a text, with the
current word accumulated in reverse. -/
def wordsOfAux : Str → Str → List Str
  | [], cur => if cur.isEmpty then [] else [cur.reverse]
  | c :: t, cur =>
    if c.isWhitespace then
      (if cur.isEmpty then wordsOfAux t [] else cur.reverse :: wordsOfAux t [])
    else wordsOfAux t (c :: cur)

def wordsOf (s : Str) : List Str := wordsOfAux s []

def isVowel (c : Char) : Bool :=
  c == 'a' || c == 'e' || c == 'i' || c == 'o' || c == 'u'

/-- A run of `n` equal copies of `prev` has been seen; reports whether some
character repeats 4+ times consecutively (regex `(.)\1{3,}`). -/
def hasRepeatRunAux : Str → Char → Nat → Bool
  | [], _, n => 4 ≤ n
  | c :: t, prev, n =>
    if 4 ≤ n then true
    else if c == prev then hasRepeatRunAux t prev (n + 1)
    else hasRepeatRunAux t c 1

def hasRepeatRun4 : Str → Bool
  | [] => false
  | c :: t => hasRepeatRunAux t c 1

/-- Regex `\d{4,}`: four or more consecutive digits somewhere in the word. -/
def hasDigitRunAux : Str → Nat → Bool
  | [], n => 4 ≤ n
  | c :: t, n =>
    if 4 ≤ n then true
    else if c.isDigit then hasDigitRunAux t (n + 1)
    else hasDigitRunAux t 0

def hasDigitRun4 (w : Str) : Bool := hasDigitRunAux w 0

/-- aiService: `!/[aeiou]/.test(word) || /(.)\1{3,}/.test(word) || /\d{4,}/.test(word)`. -/
def isGibberishWord (w : Str) : Bool :=
  !(w.any isVowel) || hasRepeatRun4 w || hasDigitRun4 w

def spamTokens : List Str :=
  ["test", "testing", "dummy", "random", "asdf", "qwerty", "lorem ipsum",
   "irrelevant", "nothing", "hello world"].map String.data

/-- aiService `detectCategory`: first keyword match wins. -/
def detectCategory (text : Str) : String :=
  if hasAny text ["road".data, "pothole".data] then "Roads & Infrastructure"
  else if hasAny text ["water".data, "drain".data] then "Water & Drainage"
  else if hasAny text ["electric".data, "streetlight".data] then "Electricity & Street Lighting"
  else if hasAny text ["garbage".data, "waste".data] then "Sanitation & Waste"
  else if hasAny text ["fire".data, "accident".data] then "Fire & Emergency"
  else if hasAny text ["tax".data, "property".data] then "Property & Tax"
  else if hasAny text ["garden".data, "environment".data] then "Environment & Gardens"
  else if hasAny text ["illegal".data, "encroachment".data] then "Encroachment & Illegal Activity"
  else "Other"

/-- aiService `detectPriority`. -/
def detectPriority (text : Str) : String :=
  if hasAny text ["fire".data, "flood".data, "accident".data] then "high"
  else if hasAny text ["electric".data, "water".data, "drainage".data, "drain".data, "garbage".data] then "medium"
  else if hasAny text ["garden".data, "cleaning".data, "minor".data] then "low"
  else "low"

/-- aiService `detectSpam(description, descriptionText)`.  The float ratio
thresholds `gibberishRatio >= 0.5` and `uniqueRatio <= 0.35` are modelled
exactly by cross-multiplication (`2g ≥ w`, `20u ≤ 7w`). -/
def detectSpam (description descriptionText : Str) : Bool :=
  if (trimStr description).length < 10 then true
  else if hasAny descriptionText spamTokens then true
  else
    let words := wordsOf descriptionText
    let noCivicSignal := detectCategory descriptionText == "Other"
    let shortAndVague := words.length < 4 && noCivicSignal
    let gibberishCount := (words.filter isGibberishWord).length
    let gibberishHigh := decide (0 < words.length) && decide (words.length ≤ 2 * gibberishCount)
    let uniqueCount := words.dedup.length
    let repeatedWordSpam := decide (4 ≤ words.length) && decide (20 * uniqueCount ≤ 7 * words.length)
    let veryLowSignal := words.length < 6 && noCivicSignal
    shortAndVague || veryLowSignal || gibberishHigh || repeatedWordSpam

structure AIResult where
  is_spam : Bool
  category : String
  priority : String
deriving DecidableEq

/-- aiService `analyzeComplaintFallback` (what `analyzeComplaint` always
runs: the offline keyword analysis). -/
def analyzeComplaintFallback (description location : Str) : AIResult :=
  let safeDescription := trimStr description
  let safeLocation := trimStr location
  let descriptionText := normWs (toLowerStr safeDescription)
  let text := normWs (toLowerStr (safeDescription ++ [' '] ++ safeLocation))
  { is_spam := detectSpam safeDescription descriptionText
    category := detectCategory text
    priority := detectPriority text }

/-- What the heuristics read from an image file on disk: its byte size and
its sha256 content hash (opaque — the code only compares hashes for
equality; identical bytes have identical hashes). -/
structure ImgFile where
  size : Nat
  hash : String
deriving DecidableEq

structure ResolutionResult where
  resolved : Bool
  confidence : String
deriving DecidableEq

/-- aiService `verifyResolutionFallback`.  `none` stands for a path that is
empty or fails `fs.existsSync`.  `sizeChangeRatio >= 0.2` (with the ratio
defined as 0 when `bigger` is 0) is modelled exactly as
`bigger ≠ 0 ∧ 5·(bigger − smaller) ≥ bigger`. -/
def verifyResolutionFallback (original proofImg : Option ImgFile) : ResolutionResult :=
  match proofImg with
  | none => { resolved := false, confidence := "low" }
  | some p =>
    match original with
    | none => { resolved := true, confidence := "medium" }
    | some o =>
      if o.hash == p.hash then { resolved := false, confidence := "low" }
      else
        let bigger := max o.size p.size
        let smaller := min o.size p.size
        if bigger == 0 then { resolved := true, confidence := "medium" }
        else if bigger ≤ 5 * (bigger - smaller) then { resolved := true, confidence := "high" }
        else { resolved := true, confidence := "medium" }

/-! ## Data model (db.ts schema) -/

structure User where
  id : Nat
  email : String
  password : String
  name : String
  role : String
deriving DecidableEq

structure Category where
  id : Nat
  name : String
deriving DecidableEq

/-- A row of the `grievances` table.  The columns are those of the current
schema in `db.ts`; `resolved_at`, `citizen_rating` and `citizen_feedback`
come from the legacy schema (the old server's `CREATE TABLE grievances`),
which the claims about `resolved_at`, reopen and feedback refer to; the
current code never names them in any `INSERT`/`UPDATE`, so they keep their
default `none`.  `images_json` holds the parsed JSON list of image paths
(`none` for SQL NULL); `latitude`/`longitude` (REAL) are omitted. -/
structure Grievance where
  id : Nat
  ticket_number : String
  citizen_id : Nat
  category_id : Nat
  title : String
  description : String
  reporter_name : Option String
  reporter_email : Option String
  reporter_mobile : Option String
  assigned_department : Option String
  location : String
  images_json : Option (List String)
  priority : String
  status : String
  complaint_status : String
  resolution_image_url : Option String
  contractor_id : Option Nat
  created_at : Nat
  updated_at : Nat
  resolved_at : Option Nat
  citizen_rating : Option Nat
  citizen_feedback : Option String
deriving DecidableEq

structure Db where
  users : List User
  categories : List Category
  grievances : List Grievance
deriving DecidableEq

structure SessionUser where
  id : Nat
  email : String
  name : String
  role : String
deriving DecidableEq

def emptyDb : Db := { users := [], categories := [], grievances := [] }

/-- `INTEGER PRIMARY KEY AUTOINCREMENT`: one more than the largest id. -/
def nextId (ids : List Nat) : Nat := ids.foldr max 0 + 1

def findGrievance (db : Db) (gid : Nat) : Option Grievance :=
  db.grievances.find? (fun g => g.id == gid)

/-- `UPDATE grievances SET ... WHERE id = gid`: apply `f` to every row with
that id (the primary key makes it at most one) and keep every other row. -/
def updateGrievance (db : Db) (gid : Nat) (f : Grievance → Grievance) : Db :=
  { db with grievances := db.grievances.map (fun g => if g.id == gid then f g else g) }

/-! ## Seeding (db.ts `seed`) -/

/-- The `name` UNIQUE constraint would reject this insert. -/
def hasCategoryName (db : Db) (nm : String) : Bool :=
  db.categories.any (fun c => c.name == nm)

/-- The `email` UNIQUE constraint would reject this insert. -/
def hasUserEmail (db : Db) (em : String) : Bool :=
  db.users.any (fun u => u.email == em)

/-- `INSERT OR IGNORE INTO grievance_categories (name) VALUES (?)`: the
`name` UNIQUE constraint makes this insert-if-absent. -/
def insertCategoryIfAbsent (db : Db) (nm : String) : Db :=
  if hasCategoryName db nm then db
  else { db with categories := db.categories ++ [⟨nextId (db.categories.map Category.id), nm⟩] }

/-- `INSERT OR IGNORE INTO users (email, password, name, role)`: the
`email` UNIQUE constraint makes this insert-if-absent. -/
def insertUserIfAbsent (db : Db) (email pw nm role : String) : Db :=
  if hasUserEmail db email then db
  else { db with users := db.users ++ [⟨nextId (db.users.map User.id), email, pw, nm, role⟩] }

def seedCategoryNames : List String :=
  ["Roads & Potholes", "Waste Management", "Street Lights",
   "Water Supply", "Drainage", "Public Safety"]

structure DemoContractor where
  name : String
  email : String
  password : String

def DEMO_CONTRACTORS : List DemoContractor :=
  [⟨"Contractor One", "contractor1@nagarseva.gov", "contractor123"⟩,
   ⟨"Contractor Two", "contractor2@nagarseva.gov", "contractor234"⟩,
   ⟨"Contractor Three", "contractor3@nagarseva.gov", "contractor345"⟩]

def seedContractors (hash : String → String) (l : List DemoContractor) (db : Db) : Db :=
  l.foldl (fun d c => insertUserIfAbsent d c.email (hash c.password) c.name "contractor") db

/-- db.ts `seed(database)`.  `hash` stands for `bcrypt.hashSync` (salted:
a re-run may produce different strings, hence a parameter). -/
def seed (hash : String → String) (db : Db) : Db :=
  let db1 := seedCategoryNames.foldl insertCategoryIfAbsent db
  let db2 := insertUserIfAbsent db1 "admin@nagarseva.gov" (hash "admin123") "Municipal Officer" "authority"
  let db3 := insertUserIfAbsent db2 "citizen@nagarseva.com" (hash "citizen123") "Harsh" "citizen"
  seedContractors hash DEMO_CONTRACTORS db3

/-! ## Rebuild migration and value normalization (db.ts) -/

def allowedStatuses : List String :=
  ["submitted", "assigned", "in_progress", "resolved", "rejected", "reopened"]

/-- The `CASE` on `status` in `ensureGrievancesWorkflowSchema`'s
`INSERT INTO grievances_new ... SELECT` and in
`normalizeGrievanceWorkflowData`'s `UPDATE` (both use the same mapping). -/
def migrateStatusValue (s : String) : String :=
  if s == "under_review" then "assigned"
  else if s == "awaiting_confirmation" then "in_progress"
  else if s == "closed" then "resolved"
  else if s == "escalated" then "reopened"
  else if allowedStatuses.contains s then s
  else "submitted"

/-- The `CASE` on `priority` (same in the rebuild and the normalization). -/
def migratePriorityValue (p : String) : String :=
  if ["low", "medium", "high"].contains p then p
  else if p == "urgent" then "high"
  else "medium"

/-- The `CASE` on `complaint_status` in the rebuild copy (SQL NULL and the
empty string both fall to `pending`; the model stores NULL as `""`). -/
def migrateComplaintStatusValue (cs : String) : String :=
  if cs == "" then "pending"
  else if ["pending", "accepted", "in_progress", "closed", "rejected", "reopened"].contains cs then cs
  else "pending"

/-- One row through the rebuild migration's copy-transform step. -/
def migrateRow (g : Grievance) : Grievance :=
  { g with status := migrateStatusValue g.status
           priority := migratePriorityValue g.priority
           complaint_status := migrateComplaintStatusValue g.complaint_status }

/-- The rebuild migration (`grievances` → `grievances_new` → rename):
every existing row is copied through the value mapping. -/
def rebuildGrievances (rows : List Grievance) : List Grievance := rows.map migrateRow

/-- `normalizeGrievanceWorkflowData`'s single `UPDATE` (status and
priority only). -/
def normalizeRow (g : Grievance) : Grievance :=
  { g with status := migrateStatusValue g.status
           priority := migratePriorityValue g.priority }

def normalizeGrievanceWorkflowData (rows : List Grievance) : List Grievance :=
  rows.map normalizeRow

/-! ## Server operations (server.ts)

Each HTTP handler becomes a pure function on `Db`; its early `return
res.status(...).json({error})` responses become nested conditionals ending
in `Except.error` with the handler's error string, and its single `UPDATE`
or `INSERT` becomes the success value.  zod payload validation and file
upload handling are HTTP glue outside the modelled core: handlers receive
already-parsed payloads. -/

/-- `pickLeastLoadedContractorId`: the SQL query groups contractors with
their `accepted`/`in_progress` grievances and takes
`ORDER BY COUNT(g.id) ASC, u.id ASC LIMIT 1`. -/
def contractorIds (db : Db) : List Nat :=
  (db.users.filter (fun u => u.role == "contractor")).map User.id

def isOpenAssignedTo (cid : Nat) (g : Grievance) : Bool :=
  g.contractor_id == some cid &&
    (g.complaint_status == "accepted" || g.complaint_status == "in_progress")

def contractorLoad (db : Db) (cid : Nat) : Nat :=
  (db.grievances.filter (isOpenAssignedTo cid)).length

/-- `a` sorts strictly before `b` under `ORDER BY load ASC, id ASC`. -/
def loadBefore (db : Db) (a b : Nat) : Bool :=
  contractorLoad db a < contractorLoad db b ||
    (contractorLoad db a == contractorLoad db b && a < b)

def pickLeastLoadedContractorId (db : Db) : Option Nat :=
  (contractorIds db).foldl
    (fun acc c =>
      match acc with
      | none => some c
      | some b => if loadBefore db c b then some c else some b)
    none

structure CategoryAssignment where
  dbCategory : String
  department : String
deriving DecidableEq

/-- The `aiCategoryMap` record literal in the `POST /api/complaints`
handler, as a lookup. -/
def aiCategoryMapLookup (c : String) : Option CategoryAssignment :=
  if c == "Roads & Infrastructure" then some ⟨"Roads & Potholes", "Public Works Department"⟩
  else if c == "Water & Drainage" then some ⟨"Drainage", "Water & Drainage Department"⟩
  else if c == "Electricity & Street Lighting" then some ⟨"Street Lights", "Electricity Department"⟩
  else if c == "Sanitation & Waste" then some ⟨"Waste Management", "Sanitation Department"⟩
  else if c == "Public Health" then some ⟨"Public Safety", "Public Health Department"⟩
  else if c == "Fire & Emergency" then some ⟨"Public Safety", "Emergency Services Department"⟩
  else if c == "Property & Tax" then some ⟨"Public Safety", "Revenue Department"⟩
  else if c == "Environment & Gardens" then some ⟨"Waste Management", "Environment Department"⟩
  else if c == "Encroachment & Illegal Activity" then some ⟨"Public Safety", "Enforcement Department"⟩
  else none

def defaultDepartmentByDbCategory (nm : String) : Option String :=
  if nm == "Roads & Potholes" then some "Public Works Department"
  else if nm == "Waste Management" then some "Sanitation Department"
  else if nm == "Street Lights" then some "Electricity Department"
  else if nm == "Water Supply" then some "Water Supply Department"
  else if nm == "Drainage" then some "Water & Drainage Department"
  else if nm == "Public Safety" then some "Public Safety Department"
  else none

/-- `mapAiCategoryToAssignment(category, exactMap)`: exact key first, then
substring checks on `category.trim().toLowerCase().replace(/\s+/g, " ")`. -/
def mapAiCategoryToAssignment (category : String) : Option CategoryAssignment :=
  if category == "" then none
  else match aiCategoryMapLookup category with
  | some m => some m
  | none =>
    let normalized := collapseWsAux (toLowerStr (trimStr category.data)) false
    if hasAny normalized ["road".data, "pothole".data, "infrastructure".data] then
      aiCategoryMapLookup "Roads & Infrastructure"
    else if hasAny normalized ["water".data, "drain".data, "sewer".data, "flood".data] then
      aiCategoryMapLookup "Water & Drainage"
    else if hasAny normalized ["electric".data, "street light".data, "lighting".data] then
      aiCategoryMapLookup "Electricity & Street Lighting"
    else if hasAny normalized ["waste".data, "garbage".data, "sanitation".data, "clean".data] then
      aiCategoryMapLookup "Sanitation & Waste"
    else if hasAny normalized ["health".data, "hospital".data, "medical".data] then
      aiCategoryMapLookup "Public Health"
    else if hasAny normalized ["fire".data, "emergency".data, "accident".data] then
      aiCategoryMapLookup "Fire & Emergency"
    else if hasAny normalized ["tax".data, "property".data, "assessment".data] then
      aiCategoryMapLookup "Property & Tax"
    else if hasAny normalized ["environment".data, "garden".data, "tree".data, "park".data] then
      aiCategoryMapLookup "Environment & Gardens"
    else if hasAny normalized ["encroach".data, "illegal".data, "unauthor".data] then
      aiCategoryMapLookup "Encroachment & Illegal Activity"
    else none

/-- `SELECT id, name FROM grievance_categories ORDER BY id LIMIT 1`. -/
def firstCategoryByIdOrder (db : Db) : Option Category :=
  db.categories.foldl
    (fun acc c =>
      match acc with
      | none => some c
      | some b => if c.id < b.id then some c else some b)
    none

def findCategoryByName (db : Db) (nm : String) : Option Category :=
  db.categories.find? (fun c => c.name == nm)

def findCategoryById (db : Db) (i : Nat) : Option Category :=
  db.categories.find? (fun c => c.id == i)

structure ComplaintPayload where
  categoryId : Option Nat
  fullName : String
  email : String
  mobile : String
  description : String
  location : String
deriving DecidableEq

/-- The row built by the handler's `INSERT INTO grievances ... VALUES
(?, ..., 'submitted', 'accepted', ?)`.  Columns the INSERT does not name
(`resolution_image_url`, `resolved_at`, ...) get their schema default
NULL; `created_at`/`updated_at` default to `CURRENT_TIMESTAMP`. -/
def mkNewGrievance (gid : Nat) (ticket : String) (citizenId : Nat)
    (payload : ComplaintPayload) (catId : Nat) (department : String)
    (imageUrls : List String) (priority : String)
    (contractorId : Option Nat) (now : Nat) : Grievance :=
  { id := gid
    ticket_number := ticket
    citizen_id := citizenId
    category_id := catId
    title := "Complaint by " ++ payload.fullName
    description := payload.description
    reporter_name := some payload.fullName
    reporter_email := some payload.email
    reporter_mobile := some payload.mobile
    assigned_department := some department
    location := payload.location
    images_json := if imageUrls.isEmpty then none else some imageUrls
    priority := priority
    status := "submitted"
    complaint_status := "accepted"
    resolution_image_url := none
    contractor_id := contractorId
    created_at := now
    updated_at := now
    resolved_at := none
    citizen_rating := none
    citizen_feedback := none }

/-- `POST /api/complaints`.  `ticket` stands for the generated
``CMP-`timestamp`-`random``` ticket number, `files` for the uploaded photo
filenames (each stored as `/uploads/name`). -/
def createComplaint (caller : SessionUser) (payload : ComplaintPayload)
    (files : List String) (ticket : String) (now : Nat) (db : Db) :
    Except String (Db × Grievance) :=
  if caller.role == "citizen" then
    let aiResult := analyzeComplaintFallback payload.description.data payload.location.data
    if aiResult.is_spam then .error "Complaint Rejected"
    else
      let mapped := mapAiCategoryToAssignment aiResult.category
      let categoryRow0 := mapped.bind (fun m => findCategoryByName db m.dbCategory)
      let categoryRow1 :=
        match categoryRow0 with
        | some c => some c
        | none => payload.categoryId.bind (findCategoryById db)
      let categoryRow2 :=
        match categoryRow1 with
        | some c => some c
        | none => firstCategoryByIdOrder db
      match categoryRow2 with
      | none => .error "No grievance categories configured"
      | some categoryRow =>
        let department :=
          match mapped with
          | some m => m.department
          | none =>
            (defaultDepartmentByDbCategory categoryRow.name).getD
              "General Administration Department"
        let contractorId := pickLeastLoadedContractorId db
        let imageUrls := files.map (fun f => "/uploads/" ++ f)
        let g := mkNewGrievance (nextId (db.grievances.map Grievance.id)) ticket
          caller.id payload categoryRow.id department imageUrls
          aiResult.priority contractorId now
        .ok ({ db with grievances := db.grievances ++ [g] }, g)
  else .error "Forbidden"

/-- The `statusMap` of `PATCH /api/authority/grievances/:id/status`. -/
def statusMapFor (requested : String) : String :=
  if requested == "accepted" then "assigned"
  else if requested == "in_progress" then "in_progress"
  else "resolved"

/-- The single `UPDATE grievances SET complaint_status = ?, status = ?,
contractor_id = ?, updated_at = CURRENT_TIMESTAMP WHERE id = ?`. -/
def setStatusRow (caller : SessionUser) (requested : String) (g : Grievance)
    (now : Nat) : Grievance :=
  { g with complaint_status := requested
           status := statusMapFor requested
           contractor_id := if caller.role == "contractor" then some caller.id else g.contractor_id
           updated_at := now }

/-- `PATCH /api/authority/grievances/:id/status`. -/
def setStatus (caller : SessionUser) (gid : Nat) (requested : String)
    (now : Nat) (db : Db) : Except String Db :=
  if caller.role == "authority" || caller.role == "contractor" then
    if ["accepted", "in_progress", "closed"].contains requested then
      match findGrievance db gid with
      | none => .error "Complaint not found"
      | some g =>
        if caller.role == "contractor" && g.contractor_id.isSome
            && g.contractor_id != some caller.id then
          .error "You can update only your assigned complaints"
        else .ok (updateGrievance db gid (fun x => setStatusRow caller requested x now))
    else .error "Invalid status"
  else .error "Forbidden"

/-- `getFirstUploadedImagePath(imagesJson)`: the first stored image path
if it starts with `/uploads/`. -/
def getFirstUploadedImagePath (imagesJson : Option (List String)) : Option String :=
  match imagesJson with
  | none => none
  | some [] => none
  | some (first :: _) =>
    if strStartsWith first.data "/uploads/".data then some first else none

/-- The single `UPDATE` of `POST /api/contractor/grievances/:id/close`:
note it does not name `resolved_at`. -/
def closeRow (caller : SessionUser) (resolutionUrl : String) (g : Grievance)
    (now : Nat) : Grievance :=
  { g with complaint_status := "closed"
           status := "resolved"
           contractor_id := if caller.role == "contractor" then some caller.id else g.contractor_id
           resolution_image_url := some resolutionUrl
           updated_at := now }

/-- `POST /api/contractor/grievances/:id/close`.  `file` is the uploaded
resolution image's filename (`none`: no file in the request), `fs` maps a
stored path to the image file on disk (`none`: `fs.existsSync` false). -/
def closeGrievance (caller : SessionUser) (gid : Nat) (file : Option String)
    (fs : String → Option ImgFile) (now : Nat) (db : Db) :
    Except String (Db × ResolutionResult) :=
  if caller.role == "authority" || caller.role == "contractor" then
    match file with
    | none => .error "Resolution image is required"
    | some proofName =>
      match findGrievance db gid with
      | none => .error "Complaint not found"
      | some g =>
        if g.complaint_status == "accepted" || g.complaint_status == "in_progress" then
          if caller.role == "contractor" && g.contractor_id.isSome
              && g.contractor_id != some caller.id then
            .error "You can close only your assigned complaints"
          else
            let verification :=
              match getFirstUploadedImagePath g.images_json with
              | some orig => verifyResolutionFallback (fs orig) (fs proofName)
              | none => { resolved := false, confidence := "low" }
            .ok (updateGrievance db gid
                  (fun x => closeRow caller ("/uploads/" ++ proofName) x now),
                 verification)
        else .error "Only accepted or in-progress complaints can be closed"
  else .error "Forbidden"

/-- The database state after a close request: the updated state on
success, the untouched one on any rejection. -/
def applyClose (caller : SessionUser) (gid : Nat) (file : Option String)
    (fs : String → Option ImgFile) (now : Nat) (db : Db) : Db :=
  match closeGrievance caller gid file fs now db with
  | .ok (d, _) => d
  | .error _ => db

/-- The per-complaint `UPDATE` of
`POST /api/authority/grievances/distribute-random`. -/
def distributeRow (cid : Nat) (g : Grievance) (now : Nat) : Grievance :=
  { g with contractor_id := some cid
           complaint_status :=
             if g.complaint_status == "in_progress" || g.complaint_status == "accepted"
             then g.complaint_status else "accepted"
           status := if g.status == "in_progress" then "in_progress" else "assigned"
           updated_at := now }

/-- The handler's loop: every grievance passing the SELECT's filter
(`complaint_status != 'closed' AND status != 'resolved'`) is reassigned to
contractor number `picks i % n` (`Math.floor(Math.random()*n)` for the
`i`-th selected complaint); the iteration order abstracts the SELECT's
`ORDER BY created_at DESC`. -/
def distributeRows (contractors : List Nat) (picks : Nat → Nat) (now : Nat) :
    List Grievance → Nat → List Grievance
  | [], _ => []
  | g :: rest, i =>
    if g.complaint_status != "closed" && g.status != "resolved" then
      distributeRow (contractors.getD (picks i % contractors.length) 0) g now
        :: distributeRows contractors picks now rest (i + 1)
    else g :: distributeRows contractors picks now rest i

/-- `POST /api/authority/grievances/distribute-random`. -/
def distributeRandom (caller : SessionUser) (picks : Nat → Nat) (now : Nat)
    (db : Db) : Except String Db :=
  if caller.role == "authority" then
    let contractors := contractorIds db
    if contractors.isEmpty then .error "No contractors available"
    else .ok { db with grievances := distributeRows contractors picks now db.grievances 0 }
  else .error "Forbidden"

/-! ### Legacy citizen endpoints (old server, `POST /api/grievances/:id/...`) -/

/-- `UPDATE grievances SET status = 'reopened', updated_at =
CURRENT_TIMESTAMP WHERE id = ?`. -/
def reopenRow (g : Grievance) (now : Nat) : Grievance :=
  { g with status := "reopened", updated_at := now }

/-- Legacy `POST /api/grievances/:id/reopen`: citizen-only, own complaint,
only from `status = 'resolved'`. -/
def reopenGrievance (caller : SessionUser) (gid : Nat) (now : Nat) (db : Db) :
    Except String Db :=
  if caller.role == "citizen" then
    match findGrievance db gid with
    | none => .error "Not found"
    | some g =>
      if g.citizen_id == caller.id then
        if g.status == "resolved" then .ok (updateGrievance db gid (fun x => reopenRow x now))
        else .error "Can only reopen resolved grievances"
      else .error "Not found"
  else .error "Forbidden"

/-- `UPDATE grievances SET citizen_rating = ?, citizen_feedback = ? WHERE
id = ?` (the legacy feedback endpoint; it does not bump `updated_at`). -/
def feedbackRow (rating : Option Nat) (fb : Option String) (g : Grievance) :
    Grievance :=
  { g with citizen_rating := rating, citizen_feedback := fb }

/-- Legacy `POST /api/grievances/:id/feedback`. -/
def submitFeedback (caller : SessionUser) (gid : Nat) (rating : Option Nat)
    (fb : Option String) (db : Db) : Except String Db :=
  if caller.role == "citizen" then
    match findGrievance db gid with
    | none => .error "Not found"
    | some g =>
      if g.citizen_id == caller.id then
        if g.status == "resolved" then .ok (updateGrievance db gid (feedbackRow rating fb))
        else .error "Can only rate resolved grievances"
      else .error "Not found"
  else .error "Forbidden"

/-! ## Concrete fixtures for witnesses and counterexamples -/

def samplePayload : ComplaintPayload :=
  { categoryId := none
    fullName := "Asha"
    email := "asha@example.com"
    mobile := "9999999999"
    description := "Large pothole causing accidents on Main Street"
    location := "Main Street" }

/-- A description whose lowercase form contains the denylist token `test`
inside the word `protest`, next to genuine civic keywords. -/
def protestPayload : ComplaintPayload :=
  { samplePayload with description := "Protest about road potholes near my house" }

def sampleCitizen : SessionUser := ⟨1, "cit@example.com", "Cit", "citizen"⟩
def sampleContractor : SessionUser := ⟨2, "con@example.com", "Con", "contractor"⟩
def sampleAuthority : SessionUser := ⟨9, "adm@example.com", "Adm", "authority"⟩

def sampleDb : Db :=
  { users := [⟨1, "cit@example.com", "pw", "Cit", "citizen"⟩,
              ⟨2, "con@example.com", "pw", "Con", "contractor"⟩]
    categories := [⟨1, "Roads & Potholes"⟩]
    grievances := [] }

def noContractorDb : Db :=
  { users := [⟨1, "cit@example.com", "pw", "Cit", "citizen"⟩]
    categories := [⟨1, "Roads & Potholes"⟩]
    grievances := [] }

/-- A stored complaint with the terminal-in-the-spec status `rejected`. -/
def rejectedGrievance : Grievance :=
  { id := 7
    ticket_number := "CMP-7"
    citizen_id := 1
    category_id := 1
    title := "t"
    description := "d"
    reporter_name := none
    reporter_email := none
    reporter_mobile := none
    assigned_department := none
    location := "loc"
    images_json := none
    priority := "medium"
    status := "rejected"
    complaint_status := "pending"
    resolution_image_url := none
    contractor_id := none
    created_at := 1
    updated_at := 1
    resolved_at := none
    citizen_rating := none
    citizen_feedback := none }

def rejectedDb : Db :=
  { users := sampleDb.users, categories := sampleDb.categories,
    grievances := [rejectedGrievance] }

/-- An accepted complaint assigned to contractor 2, used by the
set-status and close witnesses. -/
def acceptedGrievance : Grievance :=
  { rejectedGrievance with
    id := 3
    ticket_number := "CMP-3"
    status := "assigned"
    complaint_status := "accepted"
    contractor_id := some 2 }

def acceptedDb : Db :=
  { users := sampleDb.users, categories := sampleDb.categories,
    grievances := [acceptedGrievance] }

/-- A still-pending complaint, for the invalid-transition rejection. -/
def pendingGrievance : Grievance :=
  { rejectedGrievance with
    id := 4
    ticket_number := "CMP-4"
    status := "submitted" }

def pendingDb : Db :=
  { users := sampleDb.users, categories := sampleDb.categories,
    grievances := [pendingGrievance] }

/-! ## Theorems -/

theorem migrateStatusValue_of_allowed (s : String) (h : allowedStatuses.contains s = true) :
    migrateStatusValue s = s := by
  have hs : s = "submitted" ∨ s = "assigned" ∨ s = "in_progress" ∨ s = "resolved" ∨
      s = "rejected" ∨ s = "reopened" := by
    simpa [allowedStatuses] using h
  rcases hs with h | h | h | h | h | h <;> subst h <;> decide

theorem migrateStatusValue_default (s : String)
    (h : allowedStatuses.contains s = false)
    (h1 : s ≠ "under_review") (h2 : s ≠ "awaiting_confirmation")
    (h3 : s ≠ "closed") (h4 : s ≠ "escalated") :
    migrateStatusValue s = "submitted" := by
  have hmem : s ∉ allowedStatuses := by simpa [allowedStatuses] using h
  simp [migrateStatusValue, h1, h2, h3, h4, hmem]

theorem migrateStatusValue_mem (s : String) :
    allowedStatuses.contains (migrateStatusValue s) = true := by
  unfold migrateStatusValue
  repeat' split
  all_goals first | decide | assumption

theorem migratePriorityValue_default (p : String)
    (h : p ∉ (["low", "medium", "high", "urgent"] : List String)) :
    migratePriorityValue p = "medium" := by
  simp only [List.mem_cons, List.not_mem_nil, or_false, not_or] at h
  obtain ⟨h1, h2, h3, h4⟩ := h
  simp [migratePriorityValue, h1, h2, h3, h4]

/-- C4 -/
theorem migration_normalizes_status_priority (s p : String) (g : Grievance)
    (rows : List Grievance) :
    migrateStatusValue "under_review" = "assigned" ∧
    migrateStatusValue "awaiting_confirmation" = "in_progress" ∧
    migrateStatusValue "closed" = "resolved" ∧
    migrateStatusValue "escalated" = "reopened" ∧
    (allowedStatuses.contains s = true → migrateStatusValue s = s) ∧
    (allowedStatuses.contains s = false → s ≠ "under_review" →
      s ≠ "awaiting_confirmation" → s ≠ "closed" → s ≠ "escalated" →
      migrateStatusValue s = "submitted") ∧
    migratePriorityValue "urgent" = "high" ∧
    (p ∉ (["low", "medium", "high", "urgent"] : List String) →
      migratePriorityValue p = "medium") ∧
    allowedStatuses.contains (migrateStatusValue s) = true ∧
    (migrateRow g).status = migrateStatusValue g.status ∧
    (normalizeRow g).status = migrateStatusValue g.status ∧
    (∀ g2 ∈ rebuildGrievances rows, allowedStatuses.contains g2.status = true) ∧
    (∀ g2 ∈ normalizeGrievanceWorkflowData rows, allowedStatuses.contains g2.status = true) := by
  refine ⟨by decide, by decide, by decide, by decide,
    migrateStatusValue_of_allowed s,
    migrateStatusValue_default s, by decide,
    migratePriorityValue_default p,
    migrateStatusValue_mem s, rfl, rfl, ?_, ?_⟩
  · intro g2 hg2
    simp only [rebuildGrievances, List.mem_map] at hg2
    obtain ⟨g0, -, rfl⟩ := hg2
    exact migrateStatusValue_mem g0.status
  · intro g2 hg2
    simp only [normalizeGrievanceWorkflowData, List.mem_map] at hg2
    obtain ⟨g0, -, rfl⟩ := hg2
    exact migrateStatusValue_mem g0.status

/-- C9 -/
theorem verify_resolution_cases (o p : ImgFile) :
    (o.hash ≠ p.hash → max o.size p.size ≠ 0 →
      max o.size p.size ≤ 5 * (max o.size p.size - min o.size p.size) →
      verifyResolutionFallback (some o) (some p) = ⟨true, "high"⟩) ∧
    verifyResolutionFallback (some o) (some o) = ⟨false, "low"⟩ ∧
    verifyResolutionFallback none (some p) = ⟨true, "medium"⟩ := by
  refine ⟨?_, ?_, rfl⟩
  · intro hh hz hr
    simp [verifyResolutionFallback, hh, hz, hr]
  · simp [verifyResolutionFallback]

/-- C1 amended -/
theorem resolved_at_never_written (caller : SessionUser) (g : Grievance)
    (requested url ticket dep prio : String) (now gid2 citizenId catId cid : Nat)
    (payload : ComplaintPayload) (urls : List String)
    (contractorId : Option Nat) (rating : Option Nat) (fb : Option String) :
    (mkNewGrievance gid2 ticket citizenId payload catId dep urls prio contractorId now).resolved_at
        = none ∧
    (setStatusRow caller requested g now).resolved_at = g.resolved_at ∧
    (closeRow caller url g now).resolved_at = g.resolved_at ∧
    (closeRow caller url g now).status = "resolved" ∧
    (distributeRow cid g now).resolved_at = g.resolved_at ∧
    (reopenRow g now).resolved_at = g.resolved_at ∧
    (feedbackRow rating fb g).resolved_at = g.resolved_at :=
  ⟨rfl, rfl, rfl, rfl, rfl, rfl, rfl⟩

/-- C1 counterexample -/
theorem close_reaches_resolved_with_null_resolved_at :
    ((createComplaint sampleCitizen samplePayload ["p1.jpg"] "CMP-1" 10 sampleDb).toOption.bind
      (fun p => ((closeGrievance sampleContractor p.2.id (some "proof.jpg")
          (fun _ => none) 20 p.1).toOption.map
        (fun q => q.1.grievances.map (fun x : Grievance => (x.status, x.resolved_at)))))) =
      some [("resolved", none)] := by decide

/-- C2 -/
theorem close_guard_and_sole_resolution_image_writer
    (caller : SessionUser) (gid : Nat) (proofName : String)
    (fs : String → Option ImgFile) (now : Nat) (db : Db) (g : Grievance)
    (requested url : String) (cid : Nat) (rating : Option Nat) (fb : Option String)
    (gid2 citizenId catId : Nat) (ticket dep prio : String)
    (payload : ComplaintPayload) (urls : List String) (contractorId : Option Nat) :
    ((caller.role == "authority" || caller.role == "contractor") = true →
      findGrievance db gid = some g →
      (g.complaint_status == "accepted" || g.complaint_status == "in_progress") = false →
      closeGrievance caller gid (some proofName) fs now db =
        .error "Only accepted or in-progress complaints can be closed" ∧
      applyClose caller gid (some proofName) fs now db = db) ∧
    ((caller.role == "authority" || caller.role == "contractor") = true →
      findGrievance db gid = some g →
      (g.complaint_status == "accepted" || g.complaint_status == "in_progress") = true →
      (caller.role == "contractor" && g.contractor_id.isSome
          && g.contractor_id != some caller.id) = false →
      applyClose caller gid (some proofName) fs now db =
        updateGrievance db gid (fun x => closeRow caller ("/uploads/" ++ proofName) x now)) ∧
    (closeRow caller url g now).status = "resolved" ∧
    (closeRow caller url g now).complaint_status = "closed" ∧
    (closeRow caller url g now).resolution_image_url = some url ∧
    (setStatusRow caller requested g now).resolution_image_url = g.resolution_image_url ∧
    (distributeRow cid g now).resolution_image_url = g.resolution_image_url ∧
    (reopenRow g now).resolution_image_url = g.resolution_image_url ∧
    (feedbackRow rating fb g).resolution_image_url = g.resolution_image_url ∧
    (mkNewGrievance gid2 ticket citizenId payload catId dep urls prio contractorId now).resolution_image_url
      = none := by
  refine ⟨?_, ?_, rfl, rfl, rfl, rfl, rfl, rfl, rfl, rfl⟩
  · intro hrole hfind hopen
    constructor
    · simp [closeGrievance, hrole, hfind, hopen]
    · simp [applyClose, closeGrievance, hrole, hfind, hopen]
  · intro hrole hfind hopen hown
    simp [applyClose, closeGrievance, hrole, hfind, hopen, hown]

/-- C3 -/
theorem set_status_pairs_fields_atomically
    (caller : SessionUser) (gid : Nat) (requested : String) (now : Nat)
    (db : Db) (g : Grievance)
    (hrole : (caller.role == "authority" || caller.role == "contractor") = true)
    (hreq : (["accepted", "in_progress", "closed"] : List String).contains requested = true)
    (hfind : findGrievance db gid = some g)
    (hown : (caller.role == "contractor" && g.contractor_id.isSome
        && g.contractor_id != some caller.id) = false) :
    setStatus caller gid requested now db =
      .ok (updateGrievance db gid (fun x => setStatusRow caller requested x now)) ∧
    (setStatusRow caller requested g now).complaint_status = requested ∧
    (setStatusRow caller requested g now).status = statusMapFor requested ∧
    statusMapFor "accepted" = "assigned" ∧
    statusMapFor "in_progress" = "in_progress" ∧
    statusMapFor "closed" = "resolved" ∧
    (setStatusRow caller requested g now).contractor_id =
      (if caller.role == "contractor" then some caller.id else g.contractor_id) ∧
    (setStatusRow caller requested g now).updated_at = now ∧
    (setStatusRow caller requested g now).id = g.id ∧
    (setStatusRow caller requested g now).ticket_number = g.ticket_number ∧
    (setStatusRow caller requested g now).citizen_id = g.citizen_id ∧
    (setStatusRow caller requested g now).category_id = g.category_id ∧
    (setStatusRow caller requested g now).title = g.title ∧
    (setStatusRow caller requested g now).description = g.description ∧
    (setStatusRow caller requested g now).priority = g.priority ∧
    (setStatusRow caller requested g now).images_json = g.images_json ∧
    (setStatusRow caller requested g now).resolution_image_url = g.resolution_image_url ∧
    (setStatusRow caller requested g now).created_at = g.created_at ∧
    (setStatusRow caller requested g now).resolved_at = g.resolved_at := by
  refine ⟨?_, rfl, rfl, rfl, rfl, rfl, rfl, rfl, rfl, rfl, rfl, rfl, rfl, rfl, rfl, rfl, rfl, rfl, rfl⟩
  have hr3 : requested = "accepted" ∨ requested = "in_progress" ∨ requested = "closed" := by
    simpa using hreq
  simp only [setStatus, hrole, hfind, hown, if_true, Bool.false_eq_true, if_false]
  rcases hr3 with h | h | h <;> subst h <;> simp [hown]

/-- C3 witness -/
theorem set_status_pairs_fields_atomically_witness :
    setStatus sampleContractor 3 "in_progress" 6 acceptedDb =
      .ok (updateGrievance acceptedDb 3
        (fun x => setStatusRow sampleContractor "in_progress" x 6)) ∧
    (setStatusRow sampleContractor "in_progress" acceptedGrievance 6).complaint_status
      = "in_progress" :=
  ⟨(set_status_pairs_fields_atomically sampleContractor 3 "in_progress" 6 acceptedDb
      acceptedGrievance (by decide) (by decide) (by decide) (by decide)).1,
   (set_status_pairs_fields_atomically sampleContractor 3 "in_progress" 6 acceptedDb
      acceptedGrievance (by decide) (by decide) (by decide) (by decide)).2.1⟩

/-- C5 amended -/
theorem create_unconditionally_accepted
    (caller : SessionUser) (payload : ComplaintPayload) (files : List String)
    (ticket : String) (now : Nat) (db db2 : Db) (g : Grievance)
    (h : createComplaint caller payload files ticket now db = .ok (db2, g)) :
    g.status = "submitted" ∧ g.complaint_status = "accepted" ∧
    g.contractor_id = pickLeastLoadedContractorId db ∧
    db2.grievances = db.grievances ++ [g] := by
  unfold createComplaint at h
  dsimp only at h
  split at h
  · split at h
    · exact absurd h (by simp)
    · split at h
      · exact absurd h (by simp)
      · simp only [Except.ok.injEq, Prod.mk.injEq] at h
        obtain ⟨hdb, hg⟩ := h
        subst hdb
        subst hg
        exact ⟨rfl, rfl, rfl, rfl⟩
  · exact absurd h (by simp)

/-- C5 counterexample -/
theorem create_accepted_without_contractor_cex :
    pickLeastLoadedContractorId noContractorDb = none ∧
    ((createComplaint sampleCitizen samplePayload [] "CMP-1" 10 noContractorDb).toOption.map
      (fun p => (p.2.complaint_status, p.2.contractor_id))) = some ("accepted", none) := by
  decide

/-- C5 witness -/
theorem create_unconditionally_accepted_witness :
    (match createComplaint sampleCitizen samplePayload [] "CMP-1" 10 sampleDb with
      | .ok (db2, g) =>
        g.status = "submitted" ∧ g.complaint_status = "accepted" ∧
        g.contractor_id = pickLeastLoadedContractorId sampleDb ∧
        db2.grievances = sampleDb.grievances ++ [g]
      | .error _ => False) := by
  exact create_unconditionally_accepted sampleCitizen samplePayload [] "CMP-1" 10 sampleDb
    _ _ rfl

/-- C6 counterexample -/
theorem distribute_moves_rejected_cex :
    rejectedGrievance.status = "rejected" ∧
    ((distributeRandom sampleAuthority (fun _ => 0) 5 rejectedDb).toOption.map
      (fun d => d.grievances.map (fun g : Grievance => g.status))) = some ["assigned"] ∧
    ((setStatus sampleAuthority 7 "closed" 6 rejectedDb).toOption.map
      (fun d => d.grievances.map (fun g : Grievance => g.status))) = some ["resolved"] := by
  decide

/-- C6 amended -/
theorem rejected_status_overwritten
    (contractors : List Nat) (picks : Nat → Nat) (now i cid : Nat)
    (g : Grievance) (rest : List Grievance) (requested : String) (caller : SessionUser)
    (hg : g.status = "rejected")
    (hcs : (g.complaint_status != "closed") = true) :
    distributeRows contractors picks now (g :: rest) i =
      distributeRow (contractors.getD (picks i % contractors.length) 0) g now
        :: distributeRows contractors picks now rest (i + 1) ∧
    (distributeRow cid g now).status = "assigned" ∧
    (setStatusRow caller requested g now).status = statusMapFor requested ∧
    statusMapFor "closed" = "resolved" := by
  refine ⟨?_, ?_, rfl, rfl⟩
  · have hst : (g.status != "resolved") = true := by simp [hg]
    simp [distributeRows, hcs, hst]
  · simp [distributeRow, hg]

/-- C6 witness -/
theorem rejected_status_overwritten_witness :
    (distributeRow 2 rejectedGrievance 5).status = "assigned" ∧
    (setStatusRow sampleAuthority "closed" rejectedGrievance 6).status = statusMapFor "closed" :=
  ⟨(rejected_status_overwritten [2] (fun _ => 0) 5 0 2 rejectedGrievance [] "closed"
      sampleAuthority (by decide) (by decide)).2.1,
   (rejected_status_overwritten [2] (fun _ => 0) 5 0 2 rejectedGrievance [] "closed"
      sampleAuthority (by decide) (by decide)).2.2.1⟩

theorem loadBefore_iff (db : Db) (a b : Nat) :
    loadBefore db a b = true ↔
      contractorLoad db a < contractorLoad db b ∨
        (contractorLoad db a = contractorLoad db b ∧ a < b) := by
  simp [loadBefore]

theorem loadBefore_irrefl (db : Db) (a : Nat) : loadBefore db a a = false := by
  simp [loadBefore]

theorem loadBefore_trans {db : Db} {a b c : Nat}
    (h1 : loadBefore db a b = true) (h2 : loadBefore db b c = true) :
    loadBefore db a c = true := by
  rw [loadBefore_iff] at h1 h2 ⊢
  omega

theorem loadBefore_neg_trans {db : Db} {a b c : Nat}
    (h1 : loadBefore db a b = false) (h2 : loadBefore db b c = false) :
    loadBefore db a c = false := by
  rw [Bool.eq_false_iff] at h1 h2 ⊢
  rw [Ne, loadBefore_iff] at h1 h2 ⊢
  omega

theorem pickFold_spec (db : Db) (l : List Nat) : ∀ b : Nat,
    ∃ r, l.foldl (fun acc c =>
        match acc with
        | none => some c
        | some x => if loadBefore db c x then some c else some x) (some b) = some r ∧
      (r = b ∨ r ∈ l) ∧ (∀ x, (x = b ∨ x ∈ l) → loadBefore db x r = false) := by
  induction l with
  | nil =>
    intro b
    refine ⟨b, rfl, Or.inl rfl, ?_⟩
    rintro x (rfl | hx)
    · exact loadBefore_irrefl db x
    · cases hx
  | cons c t ih =>
    intro b
    by_cases hcb : loadBefore db c b = true
    · obtain ⟨r, hfold, hmem, hmin⟩ := ih c
      refine ⟨r, ?_, ?_, ?_⟩
      · simpa [List.foldl_cons, hcb] using hfold
      · rcases hmem with rfl | hr
        · exact Or.inr (List.mem_cons_self _ _)
        · exact Or.inr (List.mem_cons_of_mem _ hr)
      · rintro x (rfl | hx)
        · -- x = b: b is beaten by c, and c does not beat r
          have hcr : loadBefore db c r = false := hmin c (Or.inl rfl)
          by_contra hxr
          rw [Bool.not_eq_false] at hxr
          exact absurd (loadBefore_trans hcb hxr) (by simp [hcr])
        · rcases List.mem_cons.mp hx with rfl | hxt
          · exact hmin x (Or.inl rfl)
          · exact hmin x (Or.inr hxt)
    · rw [Bool.not_eq_true] at hcb
      obtain ⟨r, hfold, hmem, hmin⟩ := ih b
      refine ⟨r, ?_, ?_, ?_⟩
      · simpa [List.foldl_cons, hcb] using hfold
      · rcases hmem with rfl | hr
        · exact Or.inl rfl
        · exact Or.inr (List.mem_cons_of_mem _ hr)
      · rintro x (rfl | hx)
        · exact hmin x (Or.inl rfl)
        · rcases List.mem_cons.mp hx with rfl | hxt
          · exact loadBefore_neg_trans hcb (hmin b (Or.inl rfl))
          · exact hmin x (Or.inr hxt)

/-- C7 -/
theorem least_loaded_contractor_choice (db : Db) :
    (pickLeastLoadedContractorId db = none ↔ contractorIds db = []) ∧
    (∀ c, pickLeastLoadedContractorId db = some c →
      c ∈ contractorIds db ∧
      ∀ d ∈ contractorIds db,
        contractorLoad db c < contractorLoad db d ∨
          (contractorLoad db c = contractorLoad db d ∧ c ≤ d)) := by
  unfold pickLeastLoadedContractorId
  rcases hl : contractorIds db with - | ⟨b, t⟩
  · exact ⟨by simp, by simp⟩
  · obtain ⟨r, hfold, hmem, hmin⟩ := pickFold_spec db t b
    rw [List.foldl_cons]
    constructor
    · rw [hfold]
      simp
    · intro c hc
      rw [hfold] at hc
      have hrc : r = c := by simpa using hc
      rw [← hrc]
      constructor
      · rcases hmem with rfl | hr
        · exact List.mem_cons_self _ _
        · exact List.mem_cons_of_mem _ hr
      · intro d hd
        have hdc : loadBefore db d r = false := by
          rcases List.mem_cons.mp hd with rfl | hdt
          · exact hmin _ (Or.inl rfl)
          · exact hmin _ (Or.inr hdt)
        rw [Bool.eq_false_iff, Ne, loadBefore_iff] at hdc
        omega

theorem insertCategoryIfAbsent_users (db : Db) (nm : String) :
    (insertCategoryIfAbsent db nm).users = db.users := by
  unfold insertCategoryIfAbsent
  split <;> rfl

theorem insertUserIfAbsent_categories (db : Db) (email pw nm role : String) :
    (insertUserIfAbsent db email pw nm role).categories = db.categories := by
  unfold insertUserIfAbsent
  split <;> rfl

theorem hasCategoryName_congr {d e : Db} (h : d.categories = e.categories) (nm : String) :
    hasCategoryName d nm = hasCategoryName e nm := by
  unfold hasCategoryName
  rw [h]

theorem hasUserEmail_congr {d e : Db} (h : d.users = e.users) (em : String) :
    hasUserEmail d em = hasUserEmail e em := by
  unfold hasUserEmail
  rw [h]

theorem hasCategoryName_insert_self (db : Db) (nm : String) :
    hasCategoryName (insertCategoryIfAbsent db nm) nm = true := by
  unfold insertCategoryIfAbsent
  split
  · assumption
  · simp [hasCategoryName]

theorem hasCategoryName_insert_mono {db : Db} {x : String} (nm : String)
    (h : hasCategoryName db x = true) :
    hasCategoryName (insertCategoryIfAbsent db nm) x = true := by
  unfold insertCategoryIfAbsent
  split
  · exact h
  · unfold hasCategoryName at h ⊢
    simp only [List.any_append, Bool.or_eq_true]
    exact Or.inl h

theorem insertCategoryIfAbsent_noop {db : Db} {nm : String}
    (h : hasCategoryName db nm = true) : insertCategoryIfAbsent db nm = db := by
  unfold insertCategoryIfAbsent
  rw [h]
  rfl

theorem hasUserEmail_insert_self (db : Db) (email pw nm role : String) :
    hasUserEmail (insertUserIfAbsent db email pw nm role) email = true := by
  unfold insertUserIfAbsent
  split
  · assumption
  · simp [hasUserEmail]

theorem hasUserEmail_insert_mono {db : Db} {x : String} (email pw nm role : String)
    (h : hasUserEmail db x = true) :
    hasUserEmail (insertUserIfAbsent db email pw nm role) x = true := by
  unfold insertUserIfAbsent
  split
  · exact h
  · unfold hasUserEmail at h ⊢
    simp only [List.any_append, Bool.or_eq_true]
    exact Or.inl h

theorem insertUserIfAbsent_noop {db : Db} {email : String} (pw nm role : String)
    (h : hasUserEmail db email = true) : insertUserIfAbsent db email pw nm role = db := by
  unfold insertUserIfAbsent
  rw [h]
  rfl

theorem hasCategoryName_catFold_mono {db : Db} {x : String} (l : List String)
    (h : hasCategoryName db x = true) :
    hasCategoryName (l.foldl insertCategoryIfAbsent db) x = true := by
  induction l generalizing db with
  | nil => exact h
  | cons nm t ih => exact ih (hasCategoryName_insert_mono nm h)

theorem hasCategoryName_catFold_self {x : String} (l : List String) (db : Db)
    (hx : x ∈ l) :
    hasCategoryName (l.foldl insertCategoryIfAbsent db) x = true := by
  induction l generalizing db with
  | nil => cases hx
  | cons nm t ih =>
    rcases List.mem_cons.mp hx with rfl | hxt
    · exact hasCategoryName_catFold_mono t (hasCategoryName_insert_self db x)
    · exact ih _ hxt

theorem catFold_noop {l : List String} {db : Db}
    (h : ∀ nm ∈ l, hasCategoryName db nm = true) :
    l.foldl insertCategoryIfAbsent db = db := by
  induction l with
  | nil => rfl
  | cons nm t ih =>
    rw [List.foldl_cons, insertCategoryIfAbsent_noop (h nm (List.mem_cons_self _ _))]
    exact ih (fun x hx => h x (List.mem_cons_of_mem _ hx))

theorem hasUserEmail_conFold_mono {db : Db} {x : String} (hash : String → String)
    (l : List DemoContractor) (h : hasUserEmail db x = true) :
    hasUserEmail (seedContractors hash l db) x = true := by
  induction l generalizing db with
  | nil => exact h
  | cons c t ih => exact ih (hasUserEmail_insert_mono _ _ _ _ h)

theorem hasUserEmail_conFold_self {x : String} (hash : String → String)
    (l : List DemoContractor) (db : Db) (hx : x ∈ l.map DemoContractor.email) :
    hasUserEmail (seedContractors hash l db) x = true := by
  induction l generalizing db with
  | nil => cases hx
  | cons c t ih =>
    rcases List.mem_cons.mp hx with rfl | hxt
    · exact hasUserEmail_conFold_mono hash t (hasUserEmail_insert_self db _ _ _ _)
    · exact ih _ hxt

theorem conFold_noop {hash : String → String} {l : List DemoContractor} {db : Db}
    (h : ∀ c ∈ l, hasUserEmail db c.email = true) :
    seedContractors hash l db = db := by
  induction l with
  | nil => rfl
  | cons c t ih =>
    unfold seedContractors
    rw [List.foldl_cons, insertUserIfAbsent_noop _ _ _ (h c (List.mem_cons_self _ _))]
    exact ih (fun x hx => h x (List.mem_cons_of_mem _ hx))

theorem catFold_users (l : List String) (db : Db) :
    (l.foldl insertCategoryIfAbsent db).users = db.users := by
  induction l generalizing db with
  | nil => rfl
  | cons nm t ih => rw [List.foldl_cons, ih, insertCategoryIfAbsent_users]

theorem conFold_categories (hash : String → String) (l : List DemoContractor) (db : Db) :
    (seedContractors hash l db).categories = db.categories := by
  induction l generalizing db with
  | nil => rfl
  | cons c t ih =>
    unfold seedContractors
    rw [List.foldl_cons]
    exact (ih _).trans (insertUserIfAbsent_categories _ _ _ _ _)

theorem seed_categories_eq (hash : String → String) (db : Db) :
    (seed hash db).categories = (seedCategoryNames.foldl insertCategoryIfAbsent db).categories := by
  unfold seed
  rw [conFold_categories, insertUserIfAbsent_categories, insertUserIfAbsent_categories]

theorem nodup_catNames_insert {db : Db} (nm : String)
    (h : (db.categories.map Category.name).Nodup) :
    ((insertCategoryIfAbsent db nm).categories.map Category.name).Nodup := by
  unfold insertCategoryIfAbsent
  split
  · exact h
  · rename_i hno
    have hmem : nm ∉ db.categories.map Category.name := by
      simp only [Bool.not_eq_true] at hno
      unfold hasCategoryName at hno
      simp only [List.any_eq_false, beq_iff_eq] at hno
      simp only [List.mem_map, not_exists, not_and]
      intro c hc
      exact hno c hc
    simp only [List.map_append, List.map_cons, List.map_nil]
    rw [List.nodup_append]
    exact ⟨h, List.nodup_singleton nm, by simpa [List.disjoint_singleton] using hmem⟩

theorem nodup_catNames_catFold {l : List String} {db : Db}
    (h : (db.categories.map Category.name).Nodup) :
    ((l.foldl insertCategoryIfAbsent db).categories.map Category.name).Nodup := by
  induction l generalizing db with
  | nil => exact h
  | cons nm t ih => exact ih (nodup_catNames_insert nm h)

theorem nodup_emails_insert {db : Db} (email pw nm role : String)
    (h : (db.users.map User.email).Nodup) :
    ((insertUserIfAbsent db email pw nm role).users.map User.email).Nodup := by
  unfold insertUserIfAbsent
  split
  · exact h
  · rename_i hno
    have hmem : email ∉ db.users.map User.email := by
      simp only [Bool.not_eq_true] at hno
      unfold hasUserEmail at hno
      simp only [List.any_eq_false, beq_iff_eq] at hno
      simp only [List.mem_map, not_exists, not_and]
      intro u hu
      exact hno u hu
    simp only [List.map_append, List.map_cons, List.map_nil]
    rw [List.nodup_append]
    exact ⟨h, List.nodup_singleton email, by simpa [List.disjoint_singleton] using hmem⟩

theorem nodup_emails_conFold {hash : String → String} {l : List DemoContractor} {db : Db}
    (h : (db.users.map User.email).Nodup) :
    ((seedContractors hash l db).users.map User.email).Nodup := by
  induction l generalizing db with
  | nil => exact h
  | cons c t ih => exact ih (nodup_emails_insert _ _ _ _ h)

theorem insertCat_append (db : Db) (nm : String) :
    ∃ t, (insertCategoryIfAbsent db nm).categories = db.categories ++ t := by
  unfold insertCategoryIfAbsent
  split
  · exact ⟨[], by simp⟩
  · exact ⟨_, rfl⟩

theorem catFold_append (l : List String) (db : Db) :
    ∃ t, (l.foldl insertCategoryIfAbsent db).categories = db.categories ++ t := by
  induction l generalizing db with
  | nil => exact ⟨[], by simp⟩
  | cons nm t ih =>
    obtain ⟨t1, h1⟩ := insertCat_append db nm
    obtain ⟨t2, h2⟩ := ih (insertCategoryIfAbsent db nm)
    exact ⟨t1 ++ t2, by rw [List.foldl_cons, h2, h1, List.append_assoc]⟩

theorem insertUser_append (db : Db) (email pw nm role : String) :
    ∃ t, (insertUserIfAbsent db email pw nm role).users = db.users ++ t := by
  unfold insertUserIfAbsent
  split
  · exact ⟨[], by simp⟩
  · exact ⟨_, rfl⟩

theorem conFold_append (hash : String → String) (l : List DemoContractor) (db : Db) :
    ∃ t, (seedContractors hash l db).users = db.users ++ t := by
  induction l generalizing db with
  | nil => exact ⟨[], by simp [seedContractors]⟩
  | cons c t ih =>
    obtain ⟨t1, h1⟩ := insertUser_append db c.email (hash c.password) c.name "contractor"
    obtain ⟨t2, h2⟩ := ih (insertUserIfAbsent db c.email (hash c.password) c.name "contractor")
    refine ⟨t1 ++ t2, ?_⟩
    unfold seedContractors at h2 ⊢
    rw [List.foldl_cons, h2, h1, List.append_assoc]

theorem seed_idem (h1 h2 : String → String) (db : Db) :
    seed h2 (seed h1 db) = seed h1 db := by
  have hcats : ∀ nm ∈ seedCategoryNames, hasCategoryName (seed h1 db) nm = true := by
    intro nm hnm
    rw [hasCategoryName_congr (seed_categories_eq h1 db)]
    exact hasCategoryName_catFold_self _ _ hnm
  have hadmin : hasUserEmail (seed h1 db) "admin@nagarseva.gov" = true := by
    simp only [seed]
    exact hasUserEmail_conFold_mono _ _
      (hasUserEmail_insert_mono _ _ _ _ (hasUserEmail_insert_self _ _ _ _ _))
  have hcit : hasUserEmail (seed h1 db) "citizen@nagarseva.com" = true := by
    simp only [seed]
    exact hasUserEmail_conFold_mono _ _ (hasUserEmail_insert_self _ _ _ _ _)
  have hcons : ∀ c ∈ DEMO_CONTRACTORS, hasUserEmail (seed h1 db) c.email = true := by
    intro c hc
    simp only [seed]
    exact hasUserEmail_conFold_self _ _ _ (List.mem_map_of_mem _ hc)
  conv_lhs => rw [seed]
  rw [catFold_noop hcats, insertUserIfAbsent_noop _ _ _ hadmin,
      insertUserIfAbsent_noop _ _ _ hcit, conFold_noop hcons]

/-- C8 -/
theorem seed_idempotent_and_preserving (h1 h2 : String → String) (db : Db) :
    seed h2 (seed h1 db) = seed h1 db ∧
    ((db.categories.map Category.name).Nodup →
      ((seed h1 db).categories.map Category.name).Nodup) ∧
    ((db.users.map User.email).Nodup → ((seed h1 db).users.map User.email).Nodup) ∧
    (∃ t, (seed h1 db).categories = db.categories ++ t) ∧
    (∃ t, (seed h1 db).users = db.users ++ t) ∧
    (seed h1 emptyDb).categories.map Category.name = seedCategoryNames ∧
    seedCategoryNames.length = 6 := by
  refine ⟨seed_idem h1 h2 db, ?_, ?_, ?_, ?_, ?_, rfl⟩
  · intro h
    rw [seed_categories_eq]
    exact nodup_catNames_catFold h
  · intro h
    simp only [seed]
    apply nodup_emails_conFold
    apply nodup_emails_insert
    apply nodup_emails_insert
    rw [catFold_users]
    exact h
  · rw [seed_categories_eq]
    exact catFold_append _ _
  · simp only [seed]
    obtain ⟨t1, e1⟩ := insertUser_append (seedCategoryNames.foldl insertCategoryIfAbsent db)
      "admin@nagarseva.gov" (h1 "admin123") "Municipal Officer" "authority"
    obtain ⟨t2, e2⟩ := insertUser_append
      (insertUserIfAbsent (seedCategoryNames.foldl insertCategoryIfAbsent db)
        "admin@nagarseva.gov" (h1 "admin123") "Municipal Officer" "authority")
      "citizen@nagarseva.com" (h1 "citizen123") "Harsh" "citizen"
    obtain ⟨t3, e3⟩ := conFold_append h1 DEMO_CONTRACTORS
      (insertUserIfAbsent
        (insertUserIfAbsent (seedCategoryNames.foldl insertCategoryIfAbsent db)
          "admin@nagarseva.gov" (h1 "admin123") "Municipal Officer" "authority")
        "citizen@nagarseva.com" (h1 "citizen123") "Harsh" "citizen")
    refine ⟨t1 ++ t2 ++ t3, ?_⟩
    simp [e3, e2, e1, catFold_users, List.append_assoc]
  · rfl

theorem strStartsWith_iff (n : Str) : ∀ s : Str,
    strStartsWith s n = true ↔ ∃ post, s = n ++ post := by
  induction n with
  | nil =>
    intro s
    simp [strStartsWith]
  | cons d n2 ih =>
    intro s
    cases s with
    | nil => simp [strStartsWith]
    | cons c t =>
      simp only [strStartsWith, Bool.and_eq_true, beq_iff_eq, ih, List.cons_append,
        List.cons.injEq]
      constructor
      · rintro ⟨rfl, post, rfl⟩
        exact ⟨post, rfl, rfl⟩
      · rintro ⟨post, rfl, rfl⟩
        exact ⟨rfl, post, rfl⟩

theorem containsStr_iff (n : Str) : ∀ s : Str,
    containsStr s n = true ↔ ∃ pre post, s = pre ++ n ++ post := by
  intro s
  induction s with
  | nil =>
    simp only [containsStr, strStartsWith_iff]
    constructor
    · rintro ⟨post, h⟩
      exact ⟨[], post, by simpa using h⟩
    · rintro ⟨pre, post, h⟩
      rw [List.append_assoc] at h
      obtain ⟨-, h2⟩ := List.append_eq_nil.mp h.symm
      exact ⟨post, by simp [h2]⟩
  | cons c t ih =>
    simp only [containsStr, Bool.or_eq_true, strStartsWith_iff, ih]
    constructor
    · rintro (⟨post, h⟩ | ⟨pre, post, h⟩)
      · exact ⟨[], post, by simpa using h⟩
      · exact ⟨c :: pre, post, by simp [h]⟩
    · rintro ⟨pre, post, h⟩
      cases pre with
      | nil => exact Or.inl ⟨post, by simpa using h⟩
      | cons x pre2 =>
        simp only [List.cons_append, List.cons.injEq] at h
        exact Or.inr ⟨pre2, post, h.2⟩

theorem strStartsWith_collapse {n : Str} (hws : n.all (fun c => !c.isWhitespace) = true) :
    ∀ t : Str, strStartsWith t n = true → strStartsWith (collapseWsAux t false) n = true := by
  induction n with
  | nil => intro t _; cases collapseWsAux t false <;> rfl
  | cons d n2 ih =>
    intro t h
    cases t with
    | nil => cases h
    | cons c t2 =>
      simp only [strStartsWith, Bool.and_eq_true, beq_iff_eq] at h
      obtain ⟨rfl, h2⟩ := h
      simp only [List.all_cons, Bool.and_eq_true, Bool.not_eq_true'] at hws
      rw [collapseWsAux, if_neg (by simp [hws.1])]
      simp only [strStartsWith, Bool.and_eq_true, beq_iff_eq]
      exact ⟨trivial, ih hws.2 t2 h2⟩

theorem containsStr_collapse {n : Str} (hne : n ≠ [])
    (hws : n.all (fun c => !c.isWhitespace) = true) :
    ∀ (s : Str) (b : Bool), containsStr s n = true →
      containsStr (collapseWsAux s b) n = true := by
  intro s
  induction s with
  | nil =>
    intro b h
    cases n with
    | nil => exact absurd rfl hne
    | cons d n2 => cases h
  | cons c t ih =>
    intro b h
    simp only [containsStr, Bool.or_eq_true] at h
    rcases h with h | h
    · -- n is a prefix of c :: t
      cases n with
      | nil => exact absurd rfl hne
      | cons d n2 =>
        simp only [strStartsWith, Bool.and_eq_true, beq_iff_eq] at h
        obtain ⟨rfl, h2⟩ := h
        simp only [List.all_cons, Bool.and_eq_true, Bool.not_eq_true'] at hws
        rw [collapseWsAux, if_neg (by simp [hws.1])]
        simp only [containsStr, Bool.or_eq_true]
        refine Or.inl ?_
        simp only [strStartsWith, Bool.and_eq_true, beq_iff_eq]
        exact ⟨trivial, strStartsWith_collapse (by simp [List.all_cons, hws.2]) t h2⟩
    · -- n is inside t
      rw [collapseWsAux]
      by_cases hc : c.isWhitespace
      · rw [if_pos hc]
        by_cases hb : b
        · subst hb
          rw [if_pos rfl]
          exact ih true h
        · rw [Bool.not_eq_true] at hb
          subst hb
          rw [if_neg (by simp)]
          simp only [containsStr, Bool.or_eq_true]
          exact Or.inr (ih true h)
      · rw [if_neg hc]
        simp only [containsStr, Bool.or_eq_true]
        exact Or.inr (ih false h)

theorem containsStr_dropWhileWs {n s : Str} (hne : n ≠ [])
    (hws : n.all (fun c => !c.isWhitespace) = true)
    (h : containsStr s n = true) :
    containsStr (s.dropWhile Char.isWhitespace) n = true := by
  obtain ⟨pre, post, rfl⟩ := (containsStr_iff n s).mp h
  rw [containsStr_iff]
  rw [List.append_assoc, List.dropWhile_append]
  split
  · cases n with
    | nil => exact absurd rfl hne
    | cons d n2 =>
      simp only [List.all_cons, Bool.and_eq_true, Bool.not_eq_true'] at hws
      rw [List.cons_append, List.dropWhile_cons, if_neg (by simp [hws.1])]
      exact ⟨[], post, by simp⟩
  · exact ⟨pre.dropWhile Char.isWhitespace, post, by rw [List.append_assoc]⟩

theorem containsStr_reverse {n s : Str} (h : containsStr s n = true) :
    containsStr s.reverse n.reverse = true := by
  obtain ⟨pre, post, rfl⟩ := (containsStr_iff n s).mp h
  rw [containsStr_iff]
  exact ⟨post.reverse, pre.reverse, by simp⟩

theorem containsStr_trimStr {n s : Str} (hne : n ≠ [])
    (hws : n.all (fun c => !c.isWhitespace) = true)
    (h : containsStr s n = true) :
    containsStr (trimStr s) n = true := by
  unfold trimStr
  have hner : n.reverse ≠ [] := by simpa using hne
  have hwsr : n.reverse.all (fun c => !c.isWhitespace) = true := by
    rw [List.all_reverse]
    exact hws
  have h1 := containsStr_dropWhileWs hne hws h
  have h2 := containsStr_reverse h1
  have h3 := containsStr_dropWhileWs hner hwsr h2
  have h4 := containsStr_reverse h3
  simpa using h4

theorem containsStr_normWs {n s : Str} (hne : n ≠ [])
    (hws : n.all (fun c => !c.isWhitespace) = true)
    (h : containsStr s n = true) :
    containsStr (normWs s) n = true :=
  containsStr_trimStr hne hws (containsStr_collapse hne hws s false h)

/-- C10 -/
theorem spam_token_substring_rejects
    (caller : SessionUser) (payload : ComplaintPayload) (files : List String)
    (ticket : String) (now : Nat) (db : Db) (tok : Str)
    (hrole : (caller.role == "citizen") = true)
    (htok : tok ∈ spamTokens)
    (hne : tok ≠ [])
    (hws : tok.all (fun c => !c.isWhitespace) = true)
    (hsub : containsStr (toLowerStr (trimStr payload.description.data)) tok = true) :
    (analyzeComplaintFallback payload.description.data payload.location.data).is_spam = true ∧
    createComplaint caller payload files ticket now db = .error "Complaint Rejected" := by
  have hcontains : containsStr (normWs (toLowerStr (trimStr payload.description.data))) tok = true :=
    containsStr_normWs hne hws hsub
  have hhasAny : hasAny (normWs (toLowerStr (trimStr payload.description.data))) spamTokens = true := by
    unfold hasAny
    rw [List.any_eq_true]
    exact ⟨tok, htok, hcontains⟩
  have hspam : detectSpam (trimStr payload.description.data)
      (normWs (toLowerStr (trimStr payload.description.data))) = true := by
    unfold detectSpam
    split
    · rfl
    · simp [hhasAny]
  have hai : (analyzeComplaintFallback payload.description.data payload.location.data).is_spam
      = true := hspam
  refine ⟨hai, ?_⟩
  simp [createComplaint, hrole, hai]

/-- C10 witness -/
theorem spam_token_substring_rejects_witness :
    (analyzeComplaintFallback protestPayload.description.data protestPayload.location.data).is_spam
        = true ∧
    createComplaint sampleCitizen protestPayload [] "CMP-2" 11 sampleDb =
      .error "Complaint Rejected" :=
  spam_token_substring_rejects sampleCitizen protestPayload [] "CMP-2" 11 sampleDb
    "test".data (by decide) (by decide) (by decide) (by decide) (by decide)
